import Mathlib

/-!
Shallow embedding of the multi-version video converter server
(`src/server.js`) and proofs about its job pipeline: preset catalog,
filter-graph construction, intake validation, progress reporting,
job aggregation, status/download queries, and retention sweep.

Machine numbers: the JavaScript source manipulates integers (pixel
dimensions, percent values, timestamps, byte sizes) and a handful of
fractional preset knobs.  Integers are modelled as `Nat`/`Int` and
fractional values as `ℚ`; `Math.floor` is `Int.floor` on `ℚ`.
External effects (ffmpeg, the file system, HTTP) are modelled as
explicit parameters and result values.
-/

namespace VideoConverter

/-- A preset record from the `VERSION_PRESETS` table (src/server.js lines
71-127).  Optional knobs (`colorTemp`, `sharpen`, `gaussianBlur`,
`vignette`) are absent from some presets, hence `Option`/`Bool` with
defaults mirroring JavaScript `undefined` falsiness.  The static
`description` strings are kept; display-only derived data is not. -/
structure Preset where
  name : String
  speed : ℚ
  saturation : ℚ
  brightness : ℚ
  contrast : ℚ
  audioPitch : Int
  cropPercent : Nat
  colorTemp : Option String := none
  sharpen : Option ℚ := none
  gaussianBlur : Option ℚ := none
  vignette : Bool := false
  description : String
deriving Repr, DecidableEq

def version1 : Preset :=
  { name := "Original Enhanced", speed := 1, saturation := 11/10,
    brightness := 2/100, contrast := 105/100, audioPitch := 0,
    cropPercent := 0, description := "Slightly enhanced colors and contrast" }

def version2 : Preset :=
  { name := "Warm & Slower", speed := 85/100, saturation := 125/100,
    brightness := 5/100, contrast := 11/10, audioPitch := -2,
    cropPercent := 3, colorTemp := some "warm",
    description := "Warmer tones, 15% slower, zoomed in" }

def version3 : Preset :=
  { name := "Cool & Crisp", speed := 115/100, saturation := 9/10,
    brightness := -(3/100), contrast := 115/100, audioPitch := 2,
    cropPercent := 5, colorTemp := some "cool", sharpen := some (12/10),
    description := "Cooler tones, 15% faster, sharpened" }

def version4 : Preset :=
  { name := "Vibrant Motion", speed := 9/10, saturation := 14/10,
    brightness := 8/100, contrast := 12/10, audioPitch := -1,
    cropPercent := 7, vignette := true,
    description := "High saturation, 10% slower, vignette effect" }

def version5 : Preset :=
  { name := "Subtle Shift", speed := 105/100, saturation := 105/100,
    brightness := 1/100, contrast := 108/100, audioPitch := 1,
    cropPercent := 2, gaussianBlur := some (3/10),
    description := "Minimal changes, slight repositioning" }

/-- The preset catalog, in the insertion order of the `VERSION_PRESETS`
object literal; `Object.keys` preserves this order. -/
def VERSION_PRESETS : List (String × Preset) :=
  [("version1", version1), ("version2", version2), ("version3", version3),
   ("version4", version4), ("version5", version5)]

def presetKeys : List String := VERSION_PRESETS.map Prod.fst

/-! ## Version and job state -/

/-- One version slot of a job.  `status` takes the string values the code
writes: `"pending"`, `"processing"`, `"completed"`, `"failed"`.
`sizeReadable` (a display string) and the copied `description` are
omitted: no claim and no control flow reads them. -/
structure VersionState where
  status : String
  progress : Int
  filename : Option String := none
  size : Option Nat := none
  error : Option String := none
deriving Repr, DecidableEq

/-- One entry of the `jobs` map (timestamps in milliseconds). -/
structure Job where
  status : String
  versionCount : Nat
  versions : List (String × VersionState)
  startTime : Nat
  originalFilename : String
  completedTime : Option Nat := none
  processingDuration : Option Nat := none
  error : Option String := none
deriving Repr, DecidableEq

/-- The in-memory `jobs` map, as an insertion-ordered association list. -/
abbrev Registry := List (String × Job)

/-! ## Filter-graph construction (lines 474-600) -/

/-- A centered crop rectangle (integer pixel values, as the code's
`Math.floor` results). -/
structure CropBox where
  w : Int
  h : Int
  x : Int
  y : Int
deriving Repr, DecidableEq

/-- The geometry stage of the video filter chain: either
`crop=...,scale=1920:1080` or plain `scale=1920:1080`. -/
inductive GeomOp where
  | cropThenScale (box : CropBox) (outW outH : Nat)
  | scaleOnly (outW outH : Nat)
deriving Repr, DecidableEq

/-- Crop computation of `processVersionVariation` (lines 474-484):
when `cropPercent > 0`, crop to `floor(dim * (1 - pct/100))` centered,
then scale to 1920x1080; otherwise scale only. -/
def computeCropFilter (preset : Preset) (width height : Nat) : GeomOp :=
  if 0 < preset.cropPercent then
    let cropW : Int := ⌊(width : ℚ) * (1 - (preset.cropPercent : ℚ) / 100)⌋
    let cropH : Int := ⌊(height : ℚ) * (1 - (preset.cropPercent : ℚ) / 100)⌋
    let cropX : Int := ⌊((width : ℚ) - (cropW : ℚ)) / 2⌋
    let cropY : Int := ⌊((height : ℚ) - (cropH : ℚ)) / 2⌋
    .cropThenScale ⟨cropW, cropH, cropX, cropY⟩ 1920 1080
  else
    .scaleOnly 1920 1080

/-- One video filter of the chain built by `buildVideoFilterChain`,
with the numeric parameters the code interpolates into each filter
string. -/
inductive VFilter where
  | geometry (g : GeomOp)
  | colorEq (saturation brightness contrast : ℚ)
  | colortemperature (temperature : Nat) (mix : ℚ)
  | unsharp (amount : ℚ)
  | gblur (sigma : ℚ)
  | vignette
deriving Repr, DecidableEq

/-- Model of `buildVideoFilterChain` (lines 556-585).  JavaScript truthiness:
`if (preset.sharpen)` / `if (preset.gaussianBlur)` skip the filter when
the field is `undefined` or `0`. -/
def buildVideoFilterChain (preset : Preset) (cropFilter : GeomOp) : List VFilter :=
  [VFilter.geometry cropFilter]
  ++ [VFilter.colorEq preset.saturation preset.brightness preset.contrast]
  ++ (if preset.colorTemp = some "warm" then [VFilter.colortemperature 6500 (3/10)]
      else if preset.colorTemp = some "cool" then [VFilter.colortemperature 8500 (3/10)]
      else [])
  ++ (match preset.sharpen with
      | some s => if s = 0 then [] else [VFilter.unsharp s]
      | none => [])
  ++ (match preset.gaussianBlur with
      | some g => if g = 0 then [] else [VFilter.gblur g]
      | none => [])
  ++ (if preset.vignette then [VFilter.vignette] else [])

/-- One audio filter.  `asetrate` carries the base rate and the
semitone count of `asetrate=48000*2^(semitones/12)`. -/
inductive AFilter where
  | asetrate (base : Nat) (semitones : Int)
  | aresample (rate : Nat)
  | loudnorm (i tp lra : ℚ)
deriving Repr, DecidableEq

/-- Model of `buildAudioFilterChain` (lines 587-600): pitch retune + resample
when `audioPitch ≠ 0`, then always `loudnorm=I=-16:TP=-1.5:LRA=11`. -/
def buildAudioFilterChain (preset : Preset) : List AFilter :=
  (if preset.audioPitch ≠ 0
   then [AFilter.asetrate 48000 preset.audioPitch, AFilter.aresample 48000]
   else [])
  ++ [AFilter.loudnorm (-16) (-(3/2)) 11]

/-! ## Intake: POST /api/convert-multi (lines 179-224) -/

/-- Model of `parseInt(req.body.versionCount) || 1` (line 185).  The parse result
is `none` when the field is absent or non-numeric (`parseInt` yields
`NaN`); `NaN` and `0` are falsy in JavaScript, so both coerce to 1. -/
def effectiveVersionCount (parsed : Option Int) : Int :=
  match parsed with
  | none => 1
  | some v => if v = 0 then 1 else v

/-- Fresh initial version slots: the first `n` preset keys, each
`{ status: 'pending', progress: 0 }` (lines 196-205). -/
def initialVersions (n : Nat) : List (String × VersionState) :=
  (presetKeys.take n).map fun k => (k, { status := "pending", progress := 0 })

inductive IntakeResult where
  | rejected (statusCode : Nat) (error : String)
  | created (jobId : String) (job : Job)
deriving Repr, DecidableEq

/-- The convert-multi handler after a successful upload (lines 184-224):
validate the coerced version count, then register a new `processing`
job keyed by a fresh id (`jobId`, time- and randomness-derived, passed
in here).  Returns the HTTP-visible outcome and the updated registry. -/
def convertMulti (parsed : Option Int) (jobId : String) (startTime : Nat)
    (filename : String) (registry : Registry) : IntakeResult × Registry :=
  let versionCount := effectiveVersionCount parsed
  if versionCount < 1 ∨ versionCount > 5 then
    (.rejected 400 "Invalid version count. Must be between 1 and 5.", registry)
  else
    let job : Job :=
      { status := "processing", versionCount := versionCount.toNat,
        versions := initialVersions versionCount.toNat,
        startTime := startTime, originalFilename := filename }
    (.created jobId job, registry ++ [(jobId, job)])

/-! ## Version worker: progress and terminal states (lines 447-554) -/

/-- The `progress` event handler (line 526):
`Math.min(99, Math.floor(progress.percent || 0))`.  The encoder's
`percent` field may be absent (`none`, coerced to 0) and is not
lower-clamped by the code. -/
def progressUpdate (percent : Option ℚ) : Int :=
  min 99 ⌊percent.getD 0⌋

/-- The values successively written into a VersionState's `progress`
by a stream of encoder progress events. -/
def progressWrites (reports : List (Option ℚ)) : List Int :=
  reports.map progressUpdate

/-- Terminal outcome of one encode: the `end` handler's stat result,
or the `error` handler's message. -/
inductive WorkerOutcome where
  | success (size : Nat)
  | failure (msg : String)
deriving Repr, DecidableEq

/-- Output filename for a version (line 450). -/
def outputFilename (jobId versionKey : String) : String :=
  jobId ++ "_" ++ versionKey ++ ".mp4"

/-- Terminal VersionState written by the `end` handler (lines 533-544:
status `completed`, progress 100, filename, size) or the `error`/probe
failure handlers (status `failed`, error message kept; progress left at
its last value). -/
def terminalVersionState (jobId versionKey : String) (prev : VersionState) :
    WorkerOutcome → VersionState
  | .success size =>
      { prev with status := "completed", progress := 100,
                  filename := some (outputFilename jobId versionKey),
                  size := some size }
  | .failure msg =>
      { prev with status := "failed", error := some msg }

def isSuccess : WorkerOutcome → Bool
  | .success _ => true
  | .failure _ => false

/-- Job-level aggregation of `processMultipleVersions` (lines 408-445),
observed once every launched worker reached its terminal outcome:
`Promise.all` resolves iff every worker resolved, in which case the job
becomes `completed` with a completion timestamp; otherwise the catch
block marks it `failed` and records the first rejection's message
(first in key order here; real settlement order is scheduler-dependent,
and no claim reads the message).  The failure path sets no
`completedTime`. -/
def finishJob (jobId : String) (job : Job) (outcomes : String → WorkerOutcome)
    (now : Nat) : Job :=
  let versions' := job.versions.map fun kv =>
    (kv.1, terminalVersionState jobId kv.1 kv.2 (outcomes kv.1))
  if job.versions.all (fun kv => isSuccess (outcomes kv.1)) then
    { job with versions := versions', status := "completed",
               completedTime := some now,
               processingDuration := some (now - job.startTime) }
  else
    { job with versions := versions', status := "failed",
               error := (job.versions.filterMap fun kv =>
                 match outcomes kv.1 with
                 | .failure m => some m
                 | .success _ => none).head? }

/-! ## Status query: GET /api/job/:jobId (lines 227-250) -/

/-- Overall progress (lines 235-238): `Math.floor` of the sum of the
per-version progresses divided by their number. -/
def overallProgress (versions : List (String × VersionState)) : Int :=
  let ps : List Int := versions.map fun kv => kv.2.progress
  ⌊((ps.sum : Int) : ℚ) / ((ps.length : ℕ) : ℚ)⌋

inductive StatusResult where
  | notFound
  | ok (status : String) (versionCount : Nat) (overallProgress : Int)
       (versions : List (String × VersionState))
deriving Repr, DecidableEq

/-- The status handler: 404 for an unknown id, otherwise a snapshot
with the computed overall progress. -/
def getStatus (registry : Registry) (jobId : String) : StatusResult :=
  match registry.lookup jobId with
  | none => .notFound
  | some job => .ok job.status job.versionCount
      (overallProgress job.versions) job.versions

/-! ## Download: GET /api/download/:jobId/:versionKey (lines 253-285) -/

inductive DownloadResult where
  | notFound (error : String)
  | notReady
  | serverError
  | fileStream (filePath downloadName : String)
deriving Repr, DecidableEq

/-- Model of `path.parse(f).name`: the filename without its last extension. -/
def parseName (f : String) : String :=
  match (f.splitOn ".").dropLast with
  | [] => f
  | parts => String.intercalate "." parts

/-- The single-version download handler.  `files` is the set of paths
existing on disk (`fs.existsSync`).  Unknown job or version key → 404;
version not `completed` → 400 `Version not ready`; completed but file
gone → 404 `File not found`; a completed version missing its `filename`
would make `path.join` throw, surfacing as the express 500 handler
(`serverError`, unreachable for states this model produces). -/
def downloadVersion (registry : Registry) (files : List String)
    (jobId versionKey : String) : DownloadResult :=
  match registry.lookup jobId with
  | none => .notFound "Version not found"
  | some job =>
    match job.versions.lookup versionKey with
    | none => .notFound "Version not found"
    | some version =>
      if version.status ≠ "completed" then .notReady
      else
        match version.filename with
        | none => .serverError
        | some f =>
          let filePath := "processed/videos/" ++ f
          if files.contains filePath then
            let downloadName :=
              if job.versionCount = 1
              then parseName job.originalFilename ++ "_converted.mp4"
              else parseName job.originalFilename ++ "_" ++ versionKey ++ ".mp4"
            .fileStream filePath downloadName
          else .notFound "File not found"

/-! ## Retention sweep (lines 614-638) -/

/-- Retention threshold: one hour in milliseconds. -/
def CLEANUP_AGE : Nat := 60 * 60 * 1000

/-- Expiry test `job.completedTime && (now - job.completedTime > CLEANUP_AGE)`:
only jobs carrying a (truthy, hence nonzero) completion timestamp
older than the threshold are reaped. -/
def expired (now : Nat) (job : Job) : Bool :=
  match job.completedTime with
  | some t => t ≠ 0 && t + CLEANUP_AGE < now
  | none => false

/-- The backing output files of a job's versions (those with a
recorded `filename`), as on-disk paths. -/
def versionFiles (job : Job) : List String :=
  job.versions.filterMap fun kv =>
    kv.2.filename.map fun f => "processed/videos/" ++ f

/-- Combined registry + disk state acted on by the cleanup interval. -/
structure SystemState where
  registry : Registry
  files : List String
deriving Repr, DecidableEq

/-- One run of the cleanup interval: for every expired job, unlink each
version's backing file and delete the job from the registry. -/
def sweep (now : Nat) (st : SystemState) : SystemState :=
  let doomed := (st.registry.filter fun kv => expired now kv.2).flatMap
    fun kv => versionFiles kv.2
  { registry := st.registry.filter fun kv => !expired now kv.2,
    files := st.files.filter fun f => !doomed.contains f }

/-! ## Concrete data used by example-level statements -/

/-- A crop percentage of 10 (the spec's worked example; no catalog
preset uses 10) on an otherwise unchanged preset. -/
def percentTenPreset : Preset := { version1 with cropPercent := 10 }

/-- The exact arithmetic mean of the per-version progress values (the
quantity the claim says the status endpoint reports). -/
def meanProgress (versions : List (String × VersionState)) : ℚ :=
  let ps : List Int := versions.map fun kv => kv.2.progress
  ((ps.sum : Int) : ℚ) / ((ps.length : ℕ) : ℚ)

/-- Two version slots at progress 40 and 41. -/
def fortyFortyOne : List (String × VersionState) :=
  [("version1", { status := "processing", progress := 40 }),
   ("version2", { status := "processing", progress := 41 })]

/-- Two version slots at progress 40 and 60. -/
def fortySixty : List (String × VersionState) :=
  [("version1", { status := "processing", progress := 40 }),
   ("version2", { status := "processing", progress := 60 })]

/-- A job that completed successfully at t = 1000 ms. -/
def reapedJob : Job :=
  { status := "completed", versionCount := 1,
    versions := [("version1",
      { status := "completed", progress := 100,
        filename := some "jobC_version1.mp4", size := some 5 })],
    startTime := 0, originalFilename := "v.mp4",
    completedTime := some 1000, processingDuration := some 1000 }

/-- Registry and disk holding `reapedJob` and its output file. -/
def reapWitnessState : SystemState :=
  { registry := [("jobC", reapedJob)],
    files := ["processed/videos/jobC_version1.mp4"] }

/-- The job state left behind when the only worker of a one-version job
fails: the catch block of `processMultipleVersions` marks the job
`failed` but records no `completedTime`. -/
def reapCexJob : Job :=
  finishJob "jobF"
    { status := "processing", versionCount := 1, versions := initialVersions 1,
      startTime := 0, originalFilename := "v.mp4" }
    (fun _ => .failure "boom") 1000

/-- Registry holding only the failed job `reapCexJob`. -/
def reapCexState : SystemState :=
  { registry := [("jobF", reapCexJob)], files := [] }

/-! ## General lemmas about the embedding -/

lemma floor_scale_eq (w p : ℕ) :
    ⌊(w : ℚ) * (1 - (p : ℚ) / 100)⌋ = ((w : ℤ) * (100 - (p : ℤ))) / 100 := by
  have h : (w : ℚ) * (1 - (p : ℚ) / 100)
      = (((w : ℤ) * (100 - (p : ℤ)) : ℤ) : ℚ) / ((100 : ℕ) : ℚ) := by
    push_cast
    ring
  rw [h, Rat.floor_intCast_div_natCast]
  norm_num

lemma floor_half_diff (w : ℕ) (c : ℤ) :
    ⌊((w : ℚ) - (c : ℚ)) / 2⌋ = ((w : ℤ) - c) / 2 := by
  have h : ((w : ℚ) - (c : ℚ)) / 2 = (((w : ℤ) - c : ℤ) : ℚ) / ((2 : ℕ) : ℚ) := by
    push_cast
    ring
  rw [h, Rat.floor_intCast_div_natCast]
  norm_num

lemma terminal_status (jobId k : String) (v : VersionState) (o : WorkerOutcome) :
    (terminalVersionState jobId k v o).status =
      if isSuccess o then "completed" else "failed" := by
  cases o <;> rfl

lemma meanProgress_def (versions : List (String × VersionState)) :
    meanProgress versions =
      (((versions.map fun kv => kv.2.progress).sum : ℤ) : ℚ) /
        (((versions.map fun kv => kv.2.progress).length : ℕ) : ℚ) := rfl

lemma overallProgress_eq_floor_mean (versions : List (String × VersionState)) :
    overallProgress versions = ⌊meanProgress versions⌋ := rfl

lemma lookup_filter_of_pos {l : Registry} {k : String} {v : Job}
    {p : String × Job → Bool} (h : l.lookup k = some v) (hp : p (k, v) = true) :
    (l.filter p).lookup k = some v := by
  induction l with
  | nil => simp [List.lookup] at h
  | cons kv rest ih =>
    obtain ⟨a, b⟩ := kv
    cases hba : (k == a) with
    | true =>
      have hk : k = a := by simpa using hba
      subst hk
      simp only [List.lookup, hba] at h
      obtain rfl : b = v := by simpa using h
      simp only [List.filter_cons, hp, if_true]
      simp [List.lookup]
    | false =>
      simp only [List.lookup, hba] at h
      simp only [List.filter_cons]
      by_cases hq : p (a, b) = true
      · rw [if_pos hq]
        simp only [List.lookup, hba]
        exact ih h
      · rw [if_neg hq]
        exact ih h

lemma lookup_filter_of_neg {l : Registry} {k : String} {v : Job}
    {p : String × Job → Bool} (hnd : (l.map Prod.fst).Nodup)
    (h : l.lookup k = some v) (hp : p (k, v) = false) :
    (l.filter p).lookup k = none := by
  induction l with
  | nil => simp [List.lookup]
  | cons kv rest ih =>
    obtain ⟨a, b⟩ := kv
    rw [List.map_cons, List.nodup_cons] at hnd
    cases hba : (k == a) with
    | true =>
      have hk : k = a := by simpa using hba
      subst hk
      simp only [List.lookup, hba] at h
      obtain rfl : b = v := by simpa using h
      simp only [List.filter_cons, hp, if_false, Bool.false_eq_true]
      rw [List.lookup_eq_none_iff]
      intro q hq
      have hq' : q ∈ rest := List.mem_of_mem_filter hq
      have hmapped : q.1 ∈ rest.map Prod.fst := List.mem_map_of_mem Prod.fst hq'
      by_contra hne
      have hkq : k = q.1 := by simpa using hne
      exact hnd.1 (hkq ▸ hmapped)
    | false =>
      simp only [List.lookup, hba] at h
      simp only [List.filter_cons]
      by_cases hq : p (a, b) = true
      · rw [if_pos hq]
        simp only [List.lookup, hba]
        exact ih hnd.2 h
      · rw [if_neg hq]
        exact ih hnd.2 h

lemma mem_of_lookup_eq_some {l : Registry} {k : String} {v : Job}
    (h : l.lookup k = some v) : (k, v) ∈ l := by
  induction l with
  | nil => simp [List.lookup] at h
  | cons kv rest ih =>
    obtain ⟨a, b⟩ := kv
    cases hba : (k == a) with
    | true =>
      have hk : k = a := by simpa using hba
      subst hk
      simp only [List.lookup, hba] at h
      obtain rfl : b = v := by simpa using h
      exact List.mem_cons_self _ _
    | false =>
      simp only [List.lookup, hba] at h
      exact List.mem_cons_of_mem _ (ih h)

/-! ## Claim theorems -/

/-- C1: once every launched worker has reached its terminal outcome, the
job status is `completed` iff every VersionState is `completed`, is
`failed` iff at least one VersionState is `failed`, the two never hold
simultaneously, and every version sits at a terminal state (none is
silently abandoned). -/
theorem job_status_aggregation (jobId : String) (job : Job)
    (outcomes : String → WorkerOutcome) (now : Nat) :
    ((finishJob jobId job outcomes now).status = "completed" ↔
        ∀ kv ∈ (finishJob jobId job outcomes now).versions, kv.2.status = "completed") ∧
      ((finishJob jobId job outcomes now).status = "failed" ↔
        ∃ kv ∈ (finishJob jobId job outcomes now).versions, kv.2.status = "failed") ∧
      ¬((finishJob jobId job outcomes now).status = "completed" ∧
        (finishJob jobId job outcomes now).status = "failed") ∧
      ∀ kv ∈ (finishJob jobId job outcomes now).versions,
        kv.2.status = "completed" ∨ kv.2.status = "failed" := by
  unfold finishJob
  by_cases hall : job.versions.all (fun kv => isSuccess (outcomes kv.1)) = true
  · simp only [hall, if_pos]
    constructor
    · constructor
      · intro _ kv hkv
        simp only [List.mem_map] at hkv
        obtain ⟨x, hx, rfl⟩ := hkv
        rw [terminal_status, if_pos (List.all_eq_true.mp hall x hx)]
      · intro _; trivial
    constructor
    · constructor
      · intro h; exact absurd h (by decide)
      · rintro ⟨kv, hkv, hst⟩
        simp only [List.mem_map] at hkv
        obtain ⟨x, hx, rfl⟩ := hkv
        rw [terminal_status, if_pos (List.all_eq_true.mp hall x hx)] at hst
        exact absurd hst (by decide)
    constructor
    · rintro ⟨h1, h2⟩
      exact absurd h2 (by decide)
    · intro kv hkv
      simp only [List.mem_map] at hkv
      obtain ⟨x, hx, rfl⟩ := hkv
      rw [terminal_status]
      split <;> simp
  · simp only [hall, if_neg, Bool.false_eq_true, not_false_iff, if_false]
    have hex : ∃ x ∈ job.versions, isSuccess (outcomes x.1) = false := by
      rcases List.all_eq_true.not.mp hall with h
      push_neg at h
      obtain ⟨x, hx, hne⟩ := h
      exact ⟨x, hx, by revert hne; cases isSuccess (outcomes x.1) <;> simp⟩
    obtain ⟨x, hx, hxf⟩ := hex
    constructor
    · constructor
      · intro h; exact absurd h (by decide)
      · intro h
        have hmem : (x.1, terminalVersionState jobId x.1 x.2 (outcomes x.1)) ∈
            job.versions.map (fun kv => (kv.1, terminalVersionState jobId kv.1 kv.2 (outcomes kv.1))) :=
          List.mem_map.mpr ⟨x, hx, rfl⟩
        have := h _ hmem
        rw [terminal_status, hxf] at this
        exact absurd this (by decide)
    constructor
    · constructor
      · intro _
        refine ⟨(x.1, terminalVersionState jobId x.1 x.2 (outcomes x.1)),
          List.mem_map.mpr ⟨x, hx, rfl⟩, ?_⟩
        rw [terminal_status, hxf]
        rfl
      · intro _; trivial
    constructor
    · rintro ⟨h1, h2⟩
      exact absurd h1 (by decide)
    · intro kv hkv
      simp only [List.mem_map] at hkv
      obtain ⟨y, hy, rfl⟩ := hkv
      rw [terminal_status]
      split <;> simp

/-- C2: for any preset with positive crop percentage (at most 100) the
planned crop box is `floor(dim * (1 - pct/100))` in each dimension with
centered offsets `floor((dim - cropped)/2)`, stated in closed integer
form; a crop percentage of 0 yields a plain scale; and percentage 10 on
a 1000x800 source yields box (900, 720, 50, 40). -/
theorem crop_plan_spec :
    (∀ (p : Preset) (w h : ℕ), 0 < p.cropPercent →
      computeCropFilter p w h =
        .cropThenScale
          ⟨((w : ℤ) * (100 - (p.cropPercent : ℤ))) / 100,
           ((h : ℤ) * (100 - (p.cropPercent : ℤ))) / 100,
           ((w : ℤ) - ((w : ℤ) * (100 - (p.cropPercent : ℤ))) / 100) / 2,
           ((h : ℤ) - ((h : ℤ) * (100 - (p.cropPercent : ℤ))) / 100) / 2⟩ 1920 1080) ∧
    (∀ (p : Preset) (w h : ℕ), p.cropPercent = 0 →
      computeCropFilter p w h = .scaleOnly 1920 1080) ∧
    computeCropFilter percentTenPreset 1000 800 =
      .cropThenScale ⟨900, 720, 50, 40⟩ 1920 1080 := by
  have main : ∀ (p : Preset) (w h : ℕ), 0 < p.cropPercent →
      computeCropFilter p w h =
        .cropThenScale
          ⟨((w : ℤ) * (100 - (p.cropPercent : ℤ))) / 100,
           ((h : ℤ) * (100 - (p.cropPercent : ℤ))) / 100,
           ((w : ℤ) - ((w : ℤ) * (100 - (p.cropPercent : ℤ))) / 100) / 2,
           ((h : ℤ) - ((h : ℤ) * (100 - (p.cropPercent : ℤ))) / 100) / 2⟩ 1920 1080 := by
    intro p w h hp
    unfold computeCropFilter
    rw [if_pos hp]
    simp only [floor_scale_eq w p.cropPercent, floor_scale_eq h p.cropPercent,
      floor_half_diff]
  refine ⟨main, ?_, ?_⟩
  · intro p w h hp
    simp [computeCropFilter, hp]
  · rw [main percentTenPreset 1000 800 (by decide)]
    decide

/-- Witness instantiating `crop_plan_spec`: the catalog preset
`version2` (3% crop) on a 1000x800 source, and `version1` (no crop). -/
theorem crop_plan_spec_witness :
    computeCropFilter version2 1000 800 =
      .cropThenScale ⟨970, 776, 15, 12⟩ 1920 1080 ∧
    computeCropFilter version1 640 480 = .scaleOnly 1920 1080 := by
  constructor
  · rw [crop_plan_spec.1 version2 1000 800 (by decide)]
    decide
  · exact crop_plan_spec.2.1 version1 640 480 rfl

/-- C3: for every valid count 1..5, submission creates a job with
exactly that many VersionStates, keyed by the first n catalog keys (the
same keys for the same n, deterministically), each `pending` at
progress 0. -/
theorem submit_creates_n_pending_versions :
    ∀ n : ℕ, 1 ≤ n → n ≤ 5 → ∀ jobId startTime filename, ∀ registry : Registry,
      (convertMulti (some (n : ℤ)) jobId startTime filename registry).1 =
        .created jobId
          { status := "processing", versionCount := n,
            versions := initialVersions n, startTime := startTime,
            originalFilename := filename } ∧
      (initialVersions n).length = n ∧
      (initialVersions n).map Prod.fst = presetKeys.take n ∧
      ∀ kv ∈ initialVersions n, kv.2.status = "pending" ∧ kv.2.progress = 0 := by
  intro n h1 h5 jobId startTime filename registry
  interval_cases n <;> exact ⟨rfl, by decide, by decide, by decide⟩

/-- Witness instantiating `submit_creates_n_pending_versions` at n = 3. -/
theorem submit_creates_n_witness :
    (convertMulti (some 3) "job3" 17 "clip.mp4" []).1 =
      .created "job3"
        { status := "processing", versionCount := 3,
          versions := initialVersions 3, startTime := 17,
          originalFilename := "clip.mp4" } ∧
    (initialVersions 3).length = 3 ∧
    (initialVersions 3).map Prod.fst = presetKeys.take 3 ∧
    ∀ kv ∈ initialVersions 3, kv.2.status = "pending" ∧ kv.2.progress = 0 :=
  submit_creates_n_pending_versions 3 (by decide) (by decide) "job3" 17 "clip.mp4" []

/-- C4 counterexample: a requested count of 0 is below 1, yet it is not
rejected — `parseInt(..) || 1` coerces the falsy 0 to 1, a job is
created and the registry grows. -/
theorem zero_count_not_rejected :
    (convertMulti (some 0) "job0" 21 "clip.mp4" []).1 =
      .created "job0"
        { status := "processing", versionCount := 1,
          versions := [("version1", { status := "pending", progress := 0 })],
          startTime := 21, originalFilename := "clip.mp4" } ∧
    (convertMulti (some 0) "job0" 21 "clip.mp4" []).2 ≠ [] := by
  exact ⟨rfl, by decide⟩

/-- C4 (amended): every submission whose version count parses to a
negative integer or to more than 5 is rejected with the invalid-count
error before any job is created, leaving the registry unchanged.  (A
count parsing to 0, like an absent or non-numeric field, is instead
coerced to 1 — see `zero_count_not_rejected`.) -/
theorem invalid_count_rejected :
    ∀ v : ℤ, v < 0 ∨ 5 < v → ∀ jobId startTime filename, ∀ registry : Registry,
      convertMulti (some v) jobId startTime filename registry =
        (.rejected 400 "Invalid version count. Must be between 1 and 5.", registry) := by
  intro v hv jobId startTime filename registry
  simp only [convertMulti, effectiveVersionCount]
  rw [if_neg (show ¬v = 0 by omega), if_pos (show v < 1 ∨ v > 5 by omega)]

/-- Witness instantiating `invalid_count_rejected` at count 6. -/
theorem invalid_count_rejected_witness :
    convertMulti (some 6) "job6" 3 "clip.mp4" [] =
      (.rejected 400 "Invalid version count. Must be between 1 and 5.", []) :=
  invalid_count_rejected 6 (by decide) "job6" 3 "clip.mp4" []

/-- C5 counterexample: the progress handler computes
`min(99, floor(percent || 0))` with no lower clamp, so a reported
percent of -1 writes -1, outside [0, 99]; and a report sequence 50, 40
is written as 50, 40, which is not monotonically non-decreasing. -/
theorem progress_not_lower_clamped :
    progressUpdate (some (-1)) = -1 ∧ ¬(0 ≤ progressUpdate (some (-1))) ∧
    progressWrites [some 50, some 40] = [50, 40] ∧
    ¬List.Pairwise (fun a b : ℤ => a ≤ b) (progressWrites [some 50, some 40]) := by
  have h1 : progressUpdate (some (-1)) = -1 := by
    simp only [progressUpdate, Option.getD]
    rw [show ((-1 : ℚ)) = ((-1 : ℤ) : ℚ) from by norm_num, Int.floor_intCast]
    decide
  have h2 : progressUpdate (some 50) = 50 := by
    simp [progressUpdate]
  have h3 : progressUpdate (some 40) = 40 := by
    simp [progressUpdate]
  refine ⟨h1, by rw [h1]; decide, ?_, ?_⟩
  · simp [progressWrites, h2, h3]
  · simp [progressWrites, h2, h3]

/-- C5 (amended): progress writes never exceed 99 while non-terminal;
they lie in [0, 99] whenever the encoder reports a nonnegative percent;
a completed version's progress is exactly 100; and the written sequence
is monotonically non-decreasing whenever the encoder's reported
percents are (the code itself enforces neither a lower bound nor
monotonicity). -/
theorem progress_capped_and_monotone :
    (∀ reports : List (Option ℚ), ∀ x ∈ progressWrites reports, x ≤ 99) ∧
    (∀ p : Option ℚ, 0 ≤ p.getD 0 →
      0 ≤ progressUpdate p ∧ progressUpdate p ≤ 99) ∧
    (∀ jobId versionKey prev size,
      (terminalVersionState jobId versionKey prev (.success size)).progress = 100 ∧
      (terminalVersionState jobId versionKey prev (.success size)).status = "completed") ∧
    (∀ reports : List (Option ℚ),
      List.Pairwise (fun a b => a.getD 0 ≤ b.getD 0) reports →
      List.Pairwise (fun a b : ℤ => a ≤ b) (progressWrites reports)) := by
  refine ⟨?_, ?_, ?_, ?_⟩
  · intro reports x hx
    simp only [progressWrites, List.mem_map] at hx
    obtain ⟨p, _, rfl⟩ := hx
    exact min_le_left _ _
  · intro p hp
    constructor
    · exact le_min (by decide) (Int.le_floor.mpr (by simpa using hp))
    · exact min_le_left _ _
  · intro jobId versionKey prev size
    exact ⟨rfl, rfl⟩
  · intro reports hmono
    exact hmono.map progressUpdate
      (fun a b hab => min_le_min le_rfl (Int.floor_le_floor hab))

/-- Witness instantiating `progress_capped_and_monotone` on a
nonnegative report and a non-decreasing report sequence. -/
theorem progress_capped_witness :
    (0 ≤ progressUpdate (some 50) ∧ progressUpdate (some 50) ≤ 99) ∧
    List.Pairwise (fun a b : ℤ => a ≤ b) (progressWrites [some 10, some 20]) := by
  constructor
  · exact progress_capped_and_monotone.2.1 (some 50) (by norm_num)
  · exact progress_capped_and_monotone.2.2.2 [some 10, some 20]
      (by norm_num [List.pairwise_cons])

/-- C6 counterexample: the status endpoint floors the mean, so for
versions at 40 and 41 it reports 40, which differs from the exact
arithmetic mean 81/2. -/
theorem overall_progress_floored_cex :
    overallProgress fortyFortyOne = 40 ∧
    (overallProgress fortyFortyOne : ℚ) ≠ meanProgress fortyFortyOne := by
  have hm : meanProgress fortyFortyOne = ((81 : ℤ) : ℚ) / ((2 : ℕ) : ℚ) := by
    rw [meanProgress_def]
    norm_num [fortyFortyOne]
  have h : overallProgress fortyFortyOne = 40 := by
    rw [overallProgress_eq_floor_mean, hm, Rat.floor_intCast_div_natCast]
    decide
  refine ⟨h, ?_⟩
  rw [h, hm]
  norm_num

/-- C6 (amended): the reported overall progress is the floor of the
arithmetic mean of the per-version progresses (within 1 below the exact
mean), lies in [0, 100] whenever every per-version progress does, and
equals exactly 50 for a two-version job at 40 and 60. -/
theorem overall_progress_spec :
    (∀ versions : List (String × VersionState), versions ≠ [] →
      (overallProgress versions : ℚ) ≤ meanProgress versions ∧
        meanProgress versions < (overallProgress versions : ℚ) + 1) ∧
    (∀ versions : List (String × VersionState), versions ≠ [] →
      (∀ kv ∈ versions, 0 ≤ kv.2.progress ∧ kv.2.progress ≤ 100) →
      0 ≤ overallProgress versions ∧ overallProgress versions ≤ 100) ∧
    overallProgress fortySixty = 50 := by
  refine ⟨?_, ?_, ?_⟩
  · intro versions _
    rw [overallProgress_eq_floor_mean]
    exact ⟨Int.floor_le _, Int.lt_floor_add_one _⟩
  · intro versions hne hbound
    have hlen : (0 : ℚ) < ((versions.map fun kv => kv.2.progress).length : ℚ) := by
      simp only [List.length_map]
      exact_mod_cast List.length_pos.mpr hne
    have hsum0 : 0 ≤ ((versions.map fun kv => kv.2.progress).sum : ℤ) := by
      apply List.sum_nonneg
      intro x hx
      obtain ⟨kv, hkv, rfl⟩ := List.mem_map.mp hx
      exact (hbound kv hkv).1
    have hsum100 : ((versions.map fun kv => kv.2.progress).sum : ℤ) ≤
        100 * ((versions.map fun kv => kv.2.progress).length : ℤ) := by
      have hh := List.sum_le_card_nsmul (versions.map fun kv => kv.2.progress) 100
        (by intro x hx
            obtain ⟨kv, hkv, rfl⟩ := List.mem_map.mp hx
            exact (hbound kv hkv).2)
      simpa [nsmul_eq_mul, mul_comm] using hh
    rw [overallProgress_eq_floor_mean]
    constructor
    · apply Int.le_floor.mpr
      rw [meanProgress_def]
      apply div_nonneg _ hlen.le
      exact_mod_cast hsum0
    · have hmean : meanProgress versions ≤ (100 : ℚ) := by
        rw [meanProgress_def, div_le_iff₀ hlen]
        exact_mod_cast hsum100
      calc ⌊meanProgress versions⌋ ≤ ⌊(100 : ℚ)⌋ := Int.floor_le_floor hmean
        _ = 100 := by norm_num
  · have hm : meanProgress fortySixty = ((100 : ℤ) : ℚ) / ((2 : ℕ) : ℚ) := by
      rw [meanProgress_def]
      norm_num [fortySixty]
    rw [overallProgress_eq_floor_mean, hm, Rat.floor_intCast_div_natCast]
    decide

/-- Witness instantiating `overall_progress_spec` on the two-version
job at 40 and 60. -/
theorem overall_progress_spec_witness :
    ((overallProgress fortySixty : ℚ) ≤ meanProgress fortySixty ∧
      meanProgress fortySixty < (overallProgress fortySixty : ℚ) + 1) ∧
    (0 ≤ overallProgress fortySixty ∧ overallProgress fortySixty ≤ 100) := by
  constructor
  · exact overall_progress_spec.1 fortySixty (by decide)
  · exact overall_progress_spec.2.1 fortySixty (by decide) (by decide)

/-- C7: the audio plan applies the sample-rate pitch retune plus
resample exactly when the preset's pitch is nonzero, always followed by
loudness normalization; and each catalog preset's video chain is, in
order, crop/scale, then the always-present color adjustment, then
color-temperature, sharpen, blur, vignette exactly when the preset
specifies them. -/
theorem filter_chain_order :
    (∀ p : Preset, p.audioPitch ≠ 0 →
      buildAudioFilterChain p =
        [.asetrate 48000 p.audioPitch, .aresample 48000,
         .loudnorm (-16) (-(3/2)) 11]) ∧
    (∀ p : Preset, p.audioPitch = 0 →
      buildAudioFilterChain p = [.loudnorm (-16) (-(3/2)) 11]) ∧
    (∀ g, buildVideoFilterChain version1 g =
      [.geometry g, .colorEq (11/10) (2/100) (105/100)]) ∧
    (∀ g, buildVideoFilterChain version2 g =
      [.geometry g, .colorEq (125/100) (5/100) (11/10),
       .colortemperature 6500 (3/10)]) ∧
    (∀ g, buildVideoFilterChain version3 g =
      [.geometry g, .colorEq (9/10) (-(3/100)) (115/100),
       .colortemperature 8500 (3/10), .unsharp (12/10)]) ∧
    (∀ g, buildVideoFilterChain version4 g =
      [.geometry g, .colorEq (14/10) (8/100) (12/10), .vignette]) ∧
    (∀ g, buildVideoFilterChain version5 g =
      [.geometry g, .colorEq (105/100) (1/100) (108/100),
       .gblur (3/10)]) := by
  refine ⟨?_, ?_, fun g => ?_, fun g => ?_, fun g => ?_, fun g => ?_, fun g => ?_⟩
  · intro p hp
    simp [buildAudioFilterChain, hp]
  · intro p hp
    simp [buildAudioFilterChain, hp]
  all_goals norm_num [buildVideoFilterChain, version1, version2, version3, version4, version5]
  all_goals rfl

/-- Witness instantiating `filter_chain_order` on the catalog presets
with nonzero and zero pitch. -/
theorem filter_chain_order_witness :
    buildAudioFilterChain version2 =
      [.asetrate 48000 (-2), .aresample 48000, .loudnorm (-16) (-(3/2)) 11] ∧
    buildAudioFilterChain version1 = [.loudnorm (-16) (-(3/2)) 11] := by
  constructor
  · have h := filter_chain_order.1 version2 (by decide)
    simpa using h
  · exact filter_chain_order.2.1 version1 rfl

/-- C8: the single-version download endpoint returns the not-found
error for an unknown job id or version key, the not-ready error for a
known version that is not `completed`, and produces a file stream only
for a version whose status is `completed`. -/
theorem download_requires_completed :
    (∀ (registry : Registry) (files : List String) (jobId versionKey : String),
      registry.lookup jobId = none →
      downloadVersion registry files jobId versionKey = .notFound "Version not found") ∧
    (∀ (registry : Registry) (files : List String) (jobId versionKey : String)
      (job : Job), registry.lookup jobId = some job →
      job.versions.lookup versionKey = none →
      downloadVersion registry files jobId versionKey = .notFound "Version not found") ∧
    (∀ (registry : Registry) (files : List String) (jobId versionKey : String)
      (job : Job) (v : VersionState), registry.lookup jobId = some job →
      job.versions.lookup versionKey = some v → v.status ≠ "completed" →
      downloadVersion registry files jobId versionKey = .notReady) ∧
    (∀ (registry : Registry) (files : List String) (jobId versionKey : String)
      (filePath downloadName : String),
      downloadVersion registry files jobId versionKey = .fileStream filePath downloadName →
      ∃ job v, registry.lookup jobId = some job ∧
        job.versions.lookup versionKey = some v ∧ v.status = "completed") := by
  refine ⟨?_, ?_, ?_, ?_⟩
  · intro registry files jobId versionKey h
    simp [downloadVersion, h]
  · intro registry files jobId versionKey job h hv
    simp [downloadVersion, h, hv]
  · intro registry files jobId versionKey job v h hv hst
    simp [downloadVersion, h, hv, hst]
  · intro registry files jobId versionKey filePath downloadName h
    unfold downloadVersion at h
    split at h
    · simp at h
    · rename_i job hj
      split at h
      · simp at h
      · rename_i v hv
        split at h
        · simp at h
        · rename_i hst
          exact ⟨job, v, hj, hv, not_not.mp (by simpa using hst)⟩

/-- Witness instantiating `download_requires_completed`: an empty
registry yields not-found, and a pending version yields not-ready. -/
theorem download_requires_completed_witness :
    downloadVersion [] [] "nojob" "version1" = .notFound "Version not found" ∧
    downloadVersion
      [("j1", { status := "processing", versionCount := 1,
                versions := [("version1", { status := "pending", progress := 0 })],
                startTime := 0, originalFilename := "v.mp4" })] []
      "j1" "version1" = .notReady := by
  constructor
  · exact download_requires_completed.1 [] [] "nojob" "version1" rfl
  · exact download_requires_completed.2.2.1 _ [] "j1" "version1" _
      { status := "pending", progress := 0 } rfl rfl (by decide)

/-- C9 counterexample: a job whose only worker failed carries no
completion timestamp, so a sweep run arbitrarily far in the future
leaves it (and the registry) untouched and it stays reachable — failed
jobs are never reaped by the cleanup interval. -/
theorem failed_job_survives_sweep :
    reapCexJob.status = "failed" ∧
    reapCexJob.completedTime = none ∧
    1000 + CLEANUP_AGE < 999999999999 ∧
    sweep 999999999999 reapCexState = reapCexState ∧
    getStatus (sweep 999999999999 reapCexState).registry "jobF" ≠ .notFound := by
  refine ⟨by decide, by decide, by decide, by decide, ?_⟩
  have hl : (sweep 999999999999 reapCexState).registry.lookup "jobF" = some reapCexJob := by
    decide
  intro h
  simp [getStatus, hl] at h

/-- C9 (amended): any job carrying a (nonzero) completion timestamp
older than the retention threshold is reaped by a sweep — removed from
the registry, unreachable via status or download, and each recorded
backing file deleted; a job with no completion timestamp (the failure
path never sets one) survives every sweep unchanged. -/
theorem retention_reaps_completed_jobs :
    (∀ (now : Nat) (st : SystemState) (jobId : String) (job : Job) (t : Nat),
      (st.registry.map Prod.fst).Nodup →
      st.registry.lookup jobId = some job →
      job.completedTime = some t → t ≠ 0 → t + CLEANUP_AGE < now →
      (sweep now st).registry.lookup jobId = none ∧
      getStatus (sweep now st).registry jobId = .notFound ∧
      (∀ versionKey,
        downloadVersion (sweep now st).registry (sweep now st).files jobId versionKey =
          .notFound "Version not found") ∧
      (∀ f ∈ versionFiles job, f ∉ (sweep now st).files)) ∧
    (∀ (now : Nat) (st : SystemState) (jobId : String) (job : Job),
      st.registry.lookup jobId = some job → job.completedTime = none →
      (sweep now st).registry.lookup jobId = some job) := by
  constructor
  · intro now st jobId job t hnd hlk hct ht0 htl
    have hexp : expired now job = true := by
      simp [expired, hct, ht0, htl]
    have hnone : (sweep now st).registry.lookup jobId = none := by
      show (st.registry.filter fun kv => !expired now kv.2).lookup jobId = none
      exact lookup_filter_of_neg hnd hlk (by simp [hexp])
    refine ⟨hnone, by simp [getStatus, hnone],
      fun versionKey => by simp [downloadVersion, hnone], ?_⟩
    intro f hf hfin
    have hmemf := List.mem_filter.mp hfin
    simp at hmemf
    exact hmemf.2 jobId job (mem_of_lookup_eq_some hlk) hexp hf
  · intro now st jobId job hlk hct
    show (st.registry.filter fun kv => !expired now kv.2).lookup jobId = some job
    exact lookup_filter_of_pos hlk (by simp [expired, hct])

/-- Witness instantiating `retention_reaps_completed_jobs` on a
completed job finished at t = 1000 ms, swept at t = 100000000 ms. -/
theorem retention_reaps_witness :
    (sweep 100000000 reapWitnessState).registry.lookup "jobC" = none ∧
    getStatus (sweep 100000000 reapWitnessState).registry "jobC" = .notFound ∧
    (∀ versionKey,
      downloadVersion (sweep 100000000 reapWitnessState).registry
        (sweep 100000000 reapWitnessState).files "jobC" versionKey =
          .notFound "Version not found") ∧
    (∀ f ∈ versionFiles reapedJob, f ∉ (sweep 100000000 reapWitnessState).files) :=
  retention_reaps_completed_jobs.1 100000000 reapWitnessState "jobC" reapedJob
    1000 (by decide) (by decide) rfl (by decide) (by decide)

/-- C10: a version-count field that is absent, non-numeric (both parse
to NaN) or the string "0" is not rejected; the count is coerced to 1
and the created job has exactly one VersionState, keyed `version1`. -/
theorem falsy_count_coerced_to_one :
    ∀ parsed : Option ℤ, parsed = none ∨ parsed = some 0 →
      ∀ jobId startTime filename, ∀ registry : Registry,
        convertMulti parsed jobId startTime filename registry =
          (.created jobId
            { status := "processing", versionCount := 1,
              versions := [("version1", { status := "pending", progress := 0 })],
              startTime := startTime, originalFilename := filename },
           registry ++ [(jobId,
            { status := "processing", versionCount := 1,
              versions := [("version1", { status := "pending", progress := 0 })],
              startTime := startTime, originalFilename := filename })]) := by
  rintro parsed (rfl | rfl) <;> intro jobId startTime filename registry <;> rfl

/-- Witness instantiating `falsy_count_coerced_to_one` at an absent
version-count field. -/
theorem falsy_count_witness :
    convertMulti none "jobN" 9 "clip.mp4" [] =
      (.created "jobN"
        { status := "processing", versionCount := 1,
          versions := [("version1", { status := "pending", progress := 0 })],
          startTime := 9, originalFilename := "clip.mp4" },
       [("jobN",
        { status := "processing", versionCount := 1,
          versions := [("version1", { status := "pending", progress := 0 })],
          startTime := 9, originalFilename := "clip.mp4" })]) := by
  have h := falsy_count_coerced_to_one none (Or.inl rfl) "jobN" 9 "clip.mp4" []
  simpa using h

end VideoConverter
